import Mathlib

/-
Verification development for the xsfire-camp ACP adapter.

Each definition below is a shallow embedding of a function or state machine of
the Rust source (src/lib.rs, src/thread.rs, src/session_store.rs,
src/cli_common.rs, src/multi_backend.rs).  Theorems settle the frozen claims
about the adapter against these definitions.
-/

namespace XsfireAcp

/-! ## Session alias table (src/lib.rs lines 28-54)

The process-wide alias table maps a child session id to its parent (virtual)
session id.  `register_session_alias` inserts into the HashMap (later inserts
for the same key shadow earlier ones, so a cons-list with first-match lookup
has the same observable lookup behaviour).  `resolve_session_alias` returns
the mapped parent, or the input id unchanged.  -/

/-- Association-list model of the `SESSION_ALIASES` HashMap: lookup finds the
most recent insertion for a key. -/
def aliasLookup : List (String × String) → String → Option String
  | [], _ => none
  | (c, p) :: rest, s => if c = s then some p else aliasLookup rest s

/-- `register_session_alias(child, parent)`: insert child -> parent. -/
def registerSessionAlias (child parent : String) (t : List (String × String)) :
    List (String × String) :=
  (child, parent) :: t

/-- `resolve_session_alias(id)`: `get(id).cloned().unwrap_or_else(|| id)`. -/
def resolveSessionAlias (t : List (String × String)) (s : String) : String :=
  (aliasLookup t s).getD s

/-- Wire-level session id of a notification sent through
`SessionClient::send_notification` (src/thread.rs lines 2173-2181): the
stored `self.session_id` is used directly, with no alias resolution. -/
def sendNotificationWireId (selfSessionId : String) : String :=
  selfSessionId

/-- Wire-level session id of a notification sent through
`cli_common::send_agent_text` (src/cli_common.rs lines 48-64): the id is
passed through `resolve_session_alias` before hitting the wire. -/
def cliSendAgentTextWireId (t : List (String × String)) (sessionId : String) : String :=
  resolveSessionAlias t sessionId

theorem aliasLookup_mem {t : List (String × String)} {s p : String}
    (h : aliasLookup t s = some p) : (s, p) ∈ t := by
  induction t with
  | nil => simp [aliasLookup] at h
  | cons hd tl ih =>
    rcases hd with ⟨c, q⟩
    by_cases hc : c = s
    · subst hc
      simp [aliasLookup] at h
      subst h
      exact List.mem_cons_self _ _
    · simp [aliasLookup, hc] at h
      exact List.mem_cons_of_mem _ (ih h)

theorem resolveSessionAlias_of_lookup {t : List (String × String)} {s p : String}
    (h : aliasLookup t s = some p) : resolveSessionAlias t s = p := by
  simp [resolveSessionAlias, h]

theorem resolveSessionAlias_of_unmapped {t : List (String × String)} {s : String}
    (h : aliasLookup t s = none) : resolveSessionAlias t s = s := by
  simp [resolveSessionAlias, h]

/-! ## Prompt token estimate (src/thread.rs lines 270-277 and 4945-4988) -/

/-- A client prompt content block, as far as `estimate_prompt_tokens`
distinguishes them (text, image, audio, resource link, embedded text
resource; blob resources and anything else fall into the catch-all arm). -/
inductive ContentBlockM where
  | text (text : String)
  | image
  | audio
  | resourceLink (name uri : String)
  | embeddedTextResource (text uri : String)
  | embeddedBlobResource
  | other
deriving DecidableEq

/-- `estimate_text_tokens`: `ceil(char_count / 4)`; on naturals
`(n + 3) / 4`.  (The source computes this through `f64`, which is exact for
any realistic character count because division by 4 is division by a power
of two.) -/
def estimateTextTokens (s : String) : Nat :=
  (s.length + 3) / 4

/-- The `PromptTokenEstimate` accumulator struct. -/
structure PromptTokenEstimate where
  text_tokens : Nat
  embedded_context_tokens : Nat
  resource_link_tokens : Nat
  image_tokens : Nat
  audio_tokens : Nat
  total_tokens : Nat
deriving DecidableEq

def emptyPromptTokenEstimate : PromptTokenEstimate :=
  ⟨0, 0, 0, 0, 0, 0⟩

/-- One iteration of the `for block in prompt` loop of
`estimate_prompt_tokens`. -/
def estimateStep (e : PromptTokenEstimate) (b : ContentBlockM) : PromptTokenEstimate :=
  match b with
  | .text s =>
      { e with text_tokens := e.text_tokens + estimateTextTokens s }
  | .resourceLink name uri =>
      { e with resource_link_tokens :=
          e.resource_link_tokens + (12 + estimateTextTokens uri + estimateTextTokens name) }
  | .embeddedTextResource text uri =>
      { e with
          embedded_context_tokens := e.embedded_context_tokens + estimateTextTokens text,
          resource_link_tokens := e.resource_link_tokens + estimateTextTokens uri }
  | .image => { e with image_tokens := e.image_tokens + 1024 }
  | .audio => { e with audio_tokens := e.audio_tokens + 2048 }
  | .embeddedBlobResource => e
  | .other => e

/-- `estimate_prompt_tokens`: fold the per-block loop, then fill
`total_tokens` with the sum of the five category counters. -/
def estimatePromptTokens (prompt : List ContentBlockM) : PromptTokenEstimate :=
  let e := prompt.foldl estimateStep emptyPromptTokenEstimate
  { e with total_tokens :=
      e.text_tokens + e.embedded_context_tokens + e.resource_link_tokens
        + e.image_tokens + e.audio_tokens }

/-- Per-block token contribution exactly as the spec words it: text blocks
give ceil(chars/4); a resource link gives 12 plus the text estimates of its
URI and name; an embedded text resource gives the text estimates of its
payload and URI; an image 1024; an audio 2048; everything else 0. -/
def specBlockTokens : ContentBlockM → Nat
  | .text s => (s.length + 3) / 4
  | .resourceLink name uri => 12 + (uri.length + 3) / 4 + (name.length + 3) / 4
  | .embeddedTextResource text uri => (text.length + 3) / 4 + (uri.length + 3) / 4
  | .image => 1024
  | .audio => 2048
  | .embeddedBlobResource => 0
  | .other => 0

/-- The spec-side total: the plain sum of the per-block contributions. -/
def specPromptTokenTotal (prompt : List ContentBlockM) : Nat :=
  (prompt.map specBlockTokens).sum

def categorySum (e : PromptTokenEstimate) : Nat :=
  e.text_tokens + e.embedded_context_tokens + e.resource_link_tokens
    + e.image_tokens + e.audio_tokens

theorem categorySum_foldl (prompt : List ContentBlockM) :
    ∀ e : PromptTokenEstimate,
      categorySum (prompt.foldl estimateStep e) = categorySum e + specPromptTokenTotal prompt := by
  induction prompt with
  | nil => intro e; simp [specPromptTokenTotal]
  | cons b bs ih =>
    intro e
    have hb : categorySum (estimateStep e b) = categorySum e + specBlockTokens b := by
      cases b <;> simp [estimateStep, categorySum, specBlockTokens, estimateTextTokens] <;> omega
    calc categorySum ((b :: bs).foldl estimateStep e)
        = categorySum (bs.foldl estimateStep (estimateStep e b)) := by simp
      _ = categorySum (estimateStep e b) + specPromptTokenTotal bs := ih _
      _ = categorySum e + specBlockTokens b + specPromptTokenTotal bs := by rw [hb]
      _ = categorySum e + specPromptTokenTotal (b :: bs) := by
            simp [specPromptTokenTotal]
            omega

/-! ## Set-command handling order (src/thread.rs lines 2478-2517)

For `SetMode`, `SetModel` and `SetConfigOption` the actor first sends the
result on the command's one-shot response channel and only then, when the
result was Ok, runs `maybe_emit_config_options_update` and
`maybe_emit_setup_wizard_plan_update` (each of which is deduplicated against
the last emitted value and so may emit nothing).  -/

inductive ActorAction where
  | response (ok : Bool)
  | configOptionsUpdate
  | setupWizardPlanUpdate
deriving DecidableEq

/-- The ordered trace of externally visible actions performed by
`ThreadActor::handle_message` for a set-mode / set-model / set-config-option
message.  `resultOk` is whether the handler returned Ok; `emitsConfig` /
`emitsPlan` are whether the two deduplicated emitters actually emit. -/
def handleSetLikeMessage (resultOk emitsConfig emitsPlan : Bool) : List ActorAction :=
  [ActorAction.response resultOk]
    ++ (if resultOk then
          (if emitsConfig then [ActorAction.configOptionsUpdate] else [])
            ++ (if emitsPlan then [ActorAction.setupWizardPlanUpdate] else [])
        else [])

/-! ## Sequential-orchestration prompt gate (src/thread.rs lines 4210-4271) -/

inductive TaskOrchestrationModeM where
  | parallel
  | sequential
deriving DecidableEq

/-- The four `SubmissionState` variants (src/thread.rs lines 878-887). -/
inductive SubmissionLabel where
  | customPrompts
  | prompt
  | task
  | oneShotMcpTools
  | oneShotSkills
deriving DecidableEq

/-- `SubmissionState::monitor_label` (src/thread.rs lines 908-918). -/
def monitorLabel : SubmissionLabel → Option String
  | .customPrompts => none
  | .prompt => some "prompt"
  | .task => some "task"
  | .oneShotMcpTools => some "oneshot:mcp"
  | .oneShotSkills => some "oneshot:skills"

/-- One entry of the actor's live-submission map, with its `is_active`
status abstracted to a boolean. -/
structure SubmissionEntry where
  id : String
  label : SubmissionLabel
  active : Bool
deriving DecidableEq

/-- The `active_tasks` count of the sequential gate:
`submissions.values().filter(|s| s.monitor_label().is_some() && s.is_active()).count()`. -/
def activeTaskCount (subs : List SubmissionEntry) : Nat :=
  (subs.filter (fun s => (monitorLabel s.label).isSome && s.active)).length

/-- The refusal message of the sequential gate, verbatim from the source. -/
def sequentialRefusalMessage : String :=
  "Task orchestration is set to `sequential`. Wait for the current task to finish, or switch `Task Orchestration` to `Parallel`."

inductive StopReasonM where
  | endTurn
  | cancelled
deriving DecidableEq

/-- The terminal value sent on a submission's one-shot completion channel:
`Ok(EndTurn)`, `Ok(Cancelled)` or `Err` carrying message and
codex_error_info. -/
inductive OutcomeM where
  | ok (stop : StopReasonM)
  | error (message : String) (codexErrorInfo : Option String)
deriving DecidableEq

/-- Result of `ThreadActor::handle_prompt` after the backend operation has
been constructed: the notifications emitted, the operations submitted to the
backend, the resolved prompt outcome (if resolved locally), and the new
submission map. -/
structure PromptDispatch where
  agentTexts : List String
  submittedOps : List String
  localOutcome : Option OutcomeM
  submissions : List SubmissionEntry
deriving DecidableEq

/-- The tail of `ThreadActor::handle_prompt` (src/thread.rs lines
4210-4271): under Sequential orchestration with any active
prompt/task/one-shot submission the prompt is refused with a message and
EndTurn; otherwise the operation is submitted and a new submission state is
inserted. -/
def handlePromptGate (mode : TaskOrchestrationModeM) (subs : List SubmissionEntry)
    (opKind : String) (newSubmissionId : String) (newLabel : SubmissionLabel) :
    PromptDispatch :=
  if mode = TaskOrchestrationModeM.sequential ∧ 0 < activeTaskCount subs then
    { agentTexts := [sequentialRefusalMessage]
      submittedOps := []
      localOutcome := some (OutcomeM.ok StopReasonM.endTurn)
      submissions := subs }
  else
    { agentTexts := []
      submittedOps := [opKind]
      localOutcome := none
      submissions := subs ++ [⟨newSubmissionId, newLabel, true⟩] }

/-! ## Secret redaction (src/session_store.rs lines 14-49)

`redact_string` applies `replace_all` of the regex `\b(sk-[A-Za-z0-9]{20,})\b`
with the literal `sk-REDACTED`.  regex-lite character classes and `\b` are
ASCII: a word character is `[0-9A-Za-z_]`.  At a given position the pattern
matches iff the position is preceded by a non-word character (or the string
start), the text reads `sk-`, the maximal following run of ASCII
alphanumerics has length at least 20, and the character after that run is a
non-word character (or the end); the greedy `{20,}` cannot stop earlier
because every shorter run would be followed by an alphanumeric, which is
never a word boundary.  `replace_all` scans left to right and resumes after
the matched text, whose last character is alphanumeric — the scanner below
keeps exactly that one bit of left context (`pw`: previous char is a word
character). -/

/-- ASCII `[A-Za-z0-9]`. -/
def isAlnumC (c : Char) : Bool :=
  (decide ('A' ≤ c) && decide (c ≤ 'Z')) || (decide ('a' ≤ c) && decide (c ≤ 'z'))
    || (decide ('0' ≤ c) && decide (c ≤ '9'))

/-- ASCII regex word character `[0-9A-Za-z_]` (what `\b` is relative to). -/
def isWordC (c : Char) : Bool :=
  isAlnumC c || decide (c = '_')

/-- The trailing `\b` of the pattern: the next character must be a non-word
character, or the string must end. -/
def boundaryAfterOk : List Char → Bool
  | [] => true
  | c :: _ => !isWordC c

/-- Pattern tail after the literal `sk-`: a maximal alphanumeric run of
length at least 20, followed by a word boundary. -/
def matchTail (rest : List Char) : Bool :=
  decide (20 ≤ (rest.takeWhile isAlnumC).length) && boundaryAfterOk (rest.dropWhile isAlnumC)

/-- `\b(sk-[A-Za-z0-9]{20,})\b` matches at the current position, where `pw`
says whether the previous character was a word character. -/
def matchAt (pw : Bool) (l : List Char) : Bool :=
  match l with
  | c1 :: c2 :: c3 :: rest =>
      !pw && decide (c1 = 's') && decide (c2 = 'k') && decide (c3 = '-') && matchTail rest
  | _ => false

/-- The replacement text, as characters. -/
def skRedacted : List Char :=
  ['s', 'k', '-', 'R', 'E', 'D', 'A', 'C', 'T', 'E', 'D']

theorem redactLoop_dec (cs : List Char) :
    ((cs.drop 2).dropWhile isAlnumC).length < cs.length + 1 := by
  have h1 : ((cs.drop 2).dropWhile isAlnumC).length ≤ (cs.drop 2).length :=
    (List.dropWhile_sublist isAlnumC).length_le
  have h2 : (cs.drop 2).length = cs.length - 2 := List.length_drop 2 cs
  omega

/-- The `replace_all` scan of `redact_string`: copy characters, and at each
match emit `sk-REDACTED` and resume after the matched text (so with the
previous character a word character). -/
def redactLoop (pw : Bool) (l : List Char) : List Char :=
  match l with
  | [] => []
  | c :: cs =>
    if matchAt pw (c :: cs) then
      skRedacted ++ redactLoop true ((cs.drop 2).dropWhile isAlnumC)
    else
      c :: redactLoop (isWordC c) cs
termination_by l.length
decreasing_by
  all_goals simp_wf
  all_goals first
    | exact redactLoop_dec _
    | omega

/-- `redact_string`. -/
def redactString (s : String) : String :=
  String.mk (redactLoop false s.data)

/-- Whether the pattern `\b(sk-[A-Za-z0-9]{20,})\b` matches anywhere in the
character list, scanning with the same one-bit left context. -/
def containsSecret (pw : Bool) : List Char → Bool
  | [] => false
  | c :: cs => matchAt pw (c :: cs) || containsSecret (isWordC c) cs

/-- Whether a string contains a substring matching
`\b(sk-[A-Za-z0-9]{20,})\b`. -/
def containsSecretS (s : String) : Bool :=
  containsSecret false s.data

theorem matchAt_true_pw (l : List Char) : matchAt true l = false := by
  match l with
  | [] => rfl
  | [c1] => rfl
  | [c1, c2] => rfl
  | c1 :: c2 :: c3 :: rest => simp [matchAt]

theorem matchAt_eq_true {pw : Bool} {l : List Char} (h : matchAt pw l = true) :
    pw = false ∧ ∃ rest, l = 's' :: 'k' :: '-' :: rest ∧ matchTail rest = true := by
  match l with
  | [] => exact absurd h (by simp [matchAt])
  | [c1] => exact absurd h (by simp [matchAt])
  | [c1, c2] => exact absurd h (by simp [matchAt])
  | c1 :: c2 :: c3 :: rest =>
    simp only [matchAt, Bool.and_eq_true, Bool.not_eq_true', decide_eq_true_eq] at h
    obtain ⟨⟨⟨⟨hpw, h1⟩, h2⟩, h3⟩, ht⟩ := h
    subst h1; subst h2; subst h3
    exact ⟨hpw, rest, rfl, ht⟩

theorem matchAt_head_ne {pw : Bool} {c : Char} {l : List Char} (hc : ¬ c = 's') :
    matchAt pw (c :: l) = false := by
  match l with
  | [] => rfl
  | [c1] => rfl
  | c1 :: c2 :: rest => simp [matchAt, hc]

theorem redactLoop_head? : ∀ (l : List Char) (pw : Bool),
    (redactLoop pw l).head? = l.head? := by
  intro l pw
  match l with
  | [] => simp [redactLoop]
  | c :: cs =>
    rw [redactLoop]
    by_cases h : matchAt pw (c :: cs) = true
    · obtain ⟨hpw, rest, hr, ht⟩ := matchAt_eq_true h
      have hc : c = 's' := (List.cons.injEq c cs 's' _).mp hr |>.1
      subst hc
      simp [h, skRedacted]
    · simp [h]

theorem takeWhile_isAlnumC_eq_nil {l : List Char}
    (h : ∀ c, l.head? = some c → isWordC c = false) :
    l.takeWhile isAlnumC = [] := by
  cases l with
  | nil => rfl
  | cons c cs =>
    have hw := h c rfl
    have ha : isAlnumC c = false := by
      simp only [isWordC, Bool.or_eq_false_iff] at hw
      exact hw.1
    simp [List.takeWhile, ha]

theorem boundaryAfterOk_congr {l1 l2 : List Char} (h : l1.head? = l2.head?) :
    boundaryAfterOk l1 = boundaryAfterOk l2 := by
  cases l1 <;> cases l2 <;> simp_all [boundaryAfterOk]

@[simp] theorem isAlnumC_s : isAlnumC 's' = true := by decide
@[simp] theorem isAlnumC_k : isAlnumC 'k' = true := by decide
@[simp] theorem isAlnumC_dash : isAlnumC '-' = false := by decide
@[simp] theorem isAlnumC_bigR : isAlnumC 'R' = true := by decide
@[simp] theorem isAlnumC_bigE : isAlnumC 'E' = true := by decide
@[simp] theorem isAlnumC_bigD : isAlnumC 'D' = true := by decide
@[simp] theorem isAlnumC_bigA : isAlnumC 'A' = true := by decide
@[simp] theorem isAlnumC_bigC : isAlnumC 'C' = true := by decide
@[simp] theorem isAlnumC_bigT : isAlnumC 'T' = true := by decide
@[simp] theorem isWordC_s : isWordC 's' = true := by decide
@[simp] theorem isWordC_k : isWordC 'k' = true := by decide
@[simp] theorem isWordC_dash : isWordC '-' = false := by decide
@[simp] theorem isWordC_bigR : isWordC 'R' = true := by decide
@[simp] theorem isWordC_bigE : isWordC 'E' = true := by decide
@[simp] theorem isWordC_bigD : isWordC 'D' = true := by decide
@[simp] theorem isWordC_bigA : isWordC 'A' = true := by decide
@[simp] theorem isWordC_bigC : isWordC 'C' = true := by decide
@[simp] theorem isWordC_bigT : isWordC 'T' = true := by decide

/-- Copying a character and redacting further right never changes the
leading alphanumeric run nor the wordness of the character right after it:
the run and the following character are reproduced verbatim (a match starts
with `s` after a non-word character, and a replacement also starts with
`sk-`). -/
theorem redactLoop_run_spec : ∀ (l : List Char) (pw : Bool),
    (redactLoop pw l).takeWhile isAlnumC = l.takeWhile isAlnumC
    ∧ ((redactLoop pw l).dropWhile isAlnumC).head? = (l.dropWhile isAlnumC).head? := by
  intro l
  induction l with
  | nil => intro pw; simp [redactLoop]
  | cons c cs ih =>
    intro pw
    by_cases h : matchAt pw (c :: cs) = true
    · obtain ⟨hpw, rest, hr, ht⟩ := matchAt_eq_true h
      obtain ⟨hc, hcs⟩ := (List.cons.injEq c cs 's' _).mp hr
      subst hc; subst hcs
      rw [redactLoop]
      simp [h, skRedacted, List.takeWhile_cons, List.dropWhile_cons]
    · have hb : matchAt pw (c :: cs) = false := by simpa using h
      rw [redactLoop]
      by_cases ha : isAlnumC c = true
      · obtain ⟨ih1, ih2⟩ := ih (isWordC c)
        simp [hb, List.takeWhile_cons, List.dropWhile_cons, ha, ih1, ih2]
      · have ha2 : isAlnumC c = false := by simpa using ha
        simp [hb, List.takeWhile_cons, List.dropWhile_cons, ha2]

/-- Scanning the replacement text finds no match: after `sk-` it holds only
the eight alphanumerics of `REDACTED`, and what follows starts with a
non-word character (or nothing). -/
theorem containsSecret_skRedacted_append (out2 : List Char)
    (hhead : ∀ c, out2.head? = some c → isWordC c = false) :
    containsSecret false (skRedacted ++ out2) = containsSecret true out2 := by
  have htw : out2.takeWhile isAlnumC = [] := takeWhile_isAlnumC_eq_nil hhead
  simp only [skRedacted, containsSecret, matchAt_true_pw, matchAt, matchTail, htw,
    List.takeWhile_cons, isAlnumC_s, isAlnumC_k, isAlnumC_dash, isAlnumC_bigR,
    isAlnumC_bigE, isAlnumC_bigD, isAlnumC_bigA, isAlnumC_bigC, isAlnumC_bigT,
    isWordC_s, isWordC_k, isWordC_dash, isWordC_bigR, isWordC_bigE, isWordC_bigD,
    isWordC_bigA, isWordC_bigC, isWordC_bigT]
  cases out2 with
  | nil => simp
  | cons c t => cases t <;> simp_all

/-- If no match starts at `c :: cs`, then no match starts at `c` followed by
the redaction of `cs` either. -/
theorem matchAt_redactLoop_copy {pw : Bool} {c : Char} {cs : List Char}
    (h : matchAt pw (c :: cs) = false) :
    matchAt pw (c :: redactLoop (isWordC c) cs) = false := by
  cases pw with
  | true => exact matchAt_true_pw _
  | false =>
    by_cases hc : c = 's'
    case neg => exact matchAt_head_ne hc
    case pos =>
      subst hc
      match cs with
      | [] => simp [redactLoop, matchAt]
      | c1 :: cs1 =>
        by_cases hk : c1 = 'k'
        case neg =>
          have hh := redactLoop_head? (c1 :: cs1) (isWordC 's')
          cases ho : redactLoop (isWordC 's') (c1 :: cs1) with
          | nil => simp [matchAt]
          | cons x t =>
            rw [ho] at hh
            simp only [List.head?_cons, Option.some.injEq] at hh
            subst hh
            match t with
            | [] => simp [matchAt]
            | c2 :: t2 => simp [matchAt, hk]
        case pos =>
          subst hk
          have hred1 : redactLoop (isWordC 's') ('k' :: cs1)
              = 'k' :: redactLoop (isWordC 'k') cs1 := by
            rw [isWordC_s, redactLoop]
            simp [matchAt_true_pw]
          rw [hred1]
          match cs1 with
          | [] => simp [redactLoop, matchAt]
          | c2 :: cs2 =>
            by_cases hd : c2 = '-'
            case neg =>
              have hred2 : redactLoop (isWordC 'k') (c2 :: cs2)
                  = c2 :: redactLoop (isWordC c2) cs2 := by
                rw [isWordC_k, redactLoop]
                simp [matchAt_true_pw]
              rw [hred2]
              simp [matchAt, hd]
            case pos =>
              subst hd
              have hred2 : redactLoop (isWordC 'k') ('-' :: cs2)
                  = '-' :: redactLoop (isWordC '-') cs2 := by
                rw [isWordC_k, redactLoop]
                simp [matchAt_true_pw]
              rw [hred2, isWordC_dash]
              have hmt : matchTail cs2 = false := by
                simpa [matchAt] using h
              have hs := redactLoop_run_spec cs2 false
              have hcongr : matchTail (redactLoop false cs2) = matchTail cs2 := by
                simp only [matchTail]
                rw [hs.1, boundaryAfterOk_congr hs.2]
              simp [matchAt, hcongr, hmt]

/-- Core redaction safety: the output of the `replace_all` scan contains no
match of `\b(sk-[A-Za-z0-9]{20,})\b`. -/
theorem containsSecret_redactLoop :
    ∀ (n : Nat) (l : List Char), l.length ≤ n →
      ∀ pw, containsSecret pw (redactLoop pw l) = false := by
  intro n
  induction n with
  | zero =>
    intro l hl pw
    have h0 : l = [] := List.length_eq_zero.mp (Nat.le_zero.mp hl)
    subst h0
    simp [redactLoop, containsSecret]
  | succ n ih =>
    intro l hl pw
    match l with
    | [] => simp [redactLoop, containsSecret]
    | c :: cs =>
      by_cases h : matchAt pw (c :: cs) = true
      · obtain ⟨hpw, rest, hr, ht⟩ := matchAt_eq_true h
        obtain ⟨hc, hcs⟩ := (List.cons.injEq c cs 's' _).mp hr
        subst hc; subst hcs; subst hpw
        rw [redactLoop]
        simp only [h, if_true]
        have ht2 : 20 ≤ (rest.takeWhile isAlnumC).length
            ∧ boundaryAfterOk (rest.dropWhile isAlnumC) = true := by
          simpa [matchTail, Bool.and_eq_true, decide_eq_true_eq] using ht
        have hdrop : (('k' :: '-' :: rest).drop 2).dropWhile isAlnumC
            = rest.dropWhile isAlnumC := rfl
        rw [hdrop]
        have hhead : ∀ x, (redactLoop true (rest.dropWhile isAlnumC)).head? = some x →
            isWordC x = false := by
          intro x hx
          rw [redactLoop_head? (rest.dropWhile isAlnumC) true] at hx
          cases hrest2 : rest.dropWhile isAlnumC with
          | nil => rw [hrest2] at hx; simp at hx
          | cons y t =>
            rw [hrest2] at hx
            simp only [List.head?_cons, Option.some.injEq] at hx
            subst hx
            have := ht2.2
            rw [hrest2] at this
            simpa [boundaryAfterOk] using this
        rw [containsSecret_skRedacted_append _ hhead]
        have hlen : (rest.dropWhile isAlnumC).length ≤ n := by
          have h1 : (rest.dropWhile isAlnumC).length ≤ rest.length :=
            (List.dropWhile_sublist isAlnumC).length_le
          have h2 : ('s' :: 'k' :: '-' :: rest).length = rest.length + 3 := by simp
          omega
        exact ih (rest.dropWhile isAlnumC) hlen true
      · have hb : matchAt pw (c :: cs) = false := by simpa using h
        rw [redactLoop]
        simp only [hb, Bool.false_eq_true, if_false]
        rw [containsSecret]
        rw [matchAt_redactLoop_copy hb]
        simp only [Bool.false_or]
        have hlen : cs.length ≤ n := by
          have : (c :: cs).length = cs.length + 1 := by simp
          omega
        exact ih cs hlen (isWordC c)

/-- The redacted form of a string contains no substring matching
`\b(sk-[A-Za-z0-9]{20,})\b`. -/
theorem containsSecretS_redactString (s : String) :
    containsSecretS (redactString s) = false :=
  containsSecret_redactLoop s.data.length s.data Nat.le.refl false

/-! ## JSON values, `redact_json` and the canonical event
(src/session_store.rs lines 38-49 and 128-262) -/

/-- Model of `serde_json::Value`. -/
inductive JsonValue where
  | null
  | boolean (b : Bool)
  | number (n : Int)
  | string (s : String)
  | array (items : List JsonValue)
  | object (entries : List (String × JsonValue))

mutual

/-- `redact_json`: redact every string, recurse into arrays and into object
values; keys, numbers, booleans and null pass through. -/
def redactJson : JsonValue → JsonValue
  | .null => .null
  | .boolean b => .boolean b
  | .number n => .number n
  | .string s => .string (redactString s)
  | .array items => .array (redactJsonList items)
  | .object entries => .object (redactJsonEntries entries)

def redactJsonList : List JsonValue → List JsonValue
  | [] => []
  | v :: vs => redactJson v :: redactJsonList vs

def redactJsonEntries : List (String × JsonValue) → List (String × JsonValue)
  | [] => []
  | (k, v) :: kvs => (k, redactJson v) :: redactJsonEntries kvs

end

mutual

/-- Whether any string value of a JSON value contains a substring matching
`\b(sk-[A-Za-z0-9]{20,})\b`. -/
def containsSecretJson : JsonValue → Bool
  | .null => false
  | .boolean _ => false
  | .number _ => false
  | .string s => containsSecretS s
  | .array items => containsSecretJsonList items
  | .object entries => containsSecretJsonEntries entries

def containsSecretJsonList : List JsonValue → Bool
  | [] => false
  | v :: vs => containsSecretJson v || containsSecretJsonList vs

def containsSecretJsonEntries : List (String × JsonValue) → Bool
  | [] => false
  | (_, v) :: kvs => containsSecretJson v || containsSecretJsonEntries kvs

end

mutual

theorem containsSecretJson_redactJson :
    ∀ v : JsonValue, containsSecretJson (redactJson v) = false
  | .null => by simp [redactJson, containsSecretJson]
  | .boolean b => by simp [redactJson, containsSecretJson]
  | .number n => by simp [redactJson, containsSecretJson]
  | .string s => by
      simp [redactJson, containsSecretJson, containsSecretS_redactString s]
  | .array items => by
      simp [redactJson, containsSecretJson, containsSecretJsonList_redact items]
  | .object entries => by
      simp [redactJson, containsSecretJson, containsSecretJsonEntries_redact entries]

theorem containsSecretJsonList_redact :
    ∀ items : List JsonValue, containsSecretJsonList (redactJsonList items) = false
  | [] => by simp [redactJsonList, containsSecretJsonList]
  | v :: vs => by
      simp [redactJsonList, containsSecretJsonList, containsSecretJson_redactJson v,
        containsSecretJsonList_redact vs]

theorem containsSecretJsonEntries_redact :
    ∀ entries : List (String × JsonValue),
      containsSecretJsonEntries (redactJsonEntries entries) = false
  | [] => by simp [redactJsonEntries, containsSecretJsonEntries]
  | (k, v) :: kvs => by
      simp [redactJsonEntries, containsSecretJsonEntries, containsSecretJson_redactJson v,
        containsSecretJsonEntries_redact kvs]

end

/-- The immutable identity fields a `SessionStore` is initialized with. -/
structure SessionStoreM where
  globalSessionId : String
  backend : String
  acpSessionId : String
  backendSessionId : String

/-- The `CanonicalEvent` record written to `canonical.jsonl`. -/
structure CanonicalEventM where
  schemaVersion : Nat
  tsMs : Nat
  globalSessionId : String
  backend : String
  acpSessionId : String
  backendSessionId : String
  kind : String
  data : JsonValue

/-- `SessionStore::log`: build the canonical event; only the `data` payload
goes through `redact_json`, the envelope fields are written as stored. -/
def logCanonicalEvent (store : SessionStoreM) (tsMs : Nat) (kind : String)
    (data : JsonValue) : CanonicalEventM :=
  { schemaVersion := 1
    tsMs := tsMs
    globalSessionId := store.globalSessionId
    backend := store.backend
    acpSessionId := store.acpSessionId
    backendSessionId := store.backendSessionId
    kind := kind
    data := redactJson data }

/-! ## Prompt submission state machine (src/thread.rs lines 1036-2016)

`PromptState::handle_event` consumes one backend event and emits client
notifications.  The model below mirrors the handler: the per-event arm
bodies, the web-search coalescing pre-match, the delta-vs-final
deduplication flags, and the one-shot completion channel (modelled as a
boolean: sender still present).  Client calls are modelled as an emitted
output list (the wire is assumed to accept them; a failed permission
request, which would complete the submission with the wire error, is outside
the pure model). -/

inductive ToolStatusM where
  | inProgress
  | completed
  | failed
deriving DecidableEq

/-- Title / file-extension / terminal-output intent produced by
`parse_command_tool_call` from the backend's parsed-command list (the parse
itself is outside the claims; its result rides on the event). -/
structure ParsedExecInfo where
  title : String
  fileExtension : Option String
  terminalOutput : Bool
deriving DecidableEq

/-- The backend events `PromptState::handle_event` distinguishes (one
constructor per handled `EventMsg` arm that the claims touch; arms that only
log keep their own constructors so the coalescing list is exact). -/
inductive EventM where
  | turnStarted
  | itemStarted
  | itemCompleted
  | userMessage (message : String)
  | agentMessageContentDelta (delta : String)
  | reasoningContentDelta (delta : String)
  | reasoningRawContentDelta (delta : String)
  | agentReasoningSectionBreak
  | agentMessage (message : String)
  | agentReasoning (text : String)
  | planUpdate
  | webSearchBegin (callId : String)
  | webSearchEnd (callId query : String)
  | execApprovalRequest (callId : String) (parsed : ParsedExecInfo)
  | execCommandBegin (callId : String) (parsed : ParsedExecInfo)
  | execCommandOutputDelta (callId chunk : String)
  | execCommandEnd (callId : String) (exitCode : Int)
  | mcpToolCallBegin (callId : String)
  | mcpToolCallEnd (callId : String) (success : Bool)
  | applyPatchApprovalRequest (callId : String)
  | patchApplyBegin (callId : String)
  | patchApplyEnd (callId : String) (success : Bool)
  | viewImageToolCall (callId path : String)
  | enteredReviewMode
  | exitedReviewMode (reviewText : Option String)
  | undoStarted (message : Option String)
  | undoCompleted (success : Bool) (message : Option String)
  | streamError (message : String)
  | errorEvent (message : String) (codexErrorInfo : Option String)
  | turnComplete
  | turnAborted
  | shutdownComplete
  | tokenCount
  | turnDiff
  | backgroundEvent
  | contextCompacted
deriving DecidableEq

/-- The events listed in the coalescing pre-match of `handle_event`
(src/thread.rs lines 1108-1133): these complete an outstanding web-search
tool call before being processed.  Everything else (deltas, finals, plan
updates, web-search end, view-image, undo, ignored events, ...) does not. -/
def isCoalescing : EventM → Bool
  | .errorEvent _ _ => true
  | .streamError _ => true
  | .webSearchBegin _ => true
  | .userMessage _ => true
  | .execApprovalRequest _ _ => true
  | .execCommandBegin _ _ => true
  | .execCommandOutputDelta _ _ => true
  | .execCommandEnd _ _ => true
  | .mcpToolCallBegin _ => true
  | .mcpToolCallEnd _ _ => true
  | .applyPatchApprovalRequest _ => true
  | .patchApplyBegin _ => true
  | .patchApplyEnd _ _ => true
  | .turnStarted => true
  | .turnComplete => true
  | .tokenCount => true
  | .turnDiff => true
  | .turnAborted => true
  | .enteredReviewMode => true
  | .exitedReviewMode _ => true
  | .shutdownComplete => true
  | _ => false

/-- Client-visible emissions of the prompt state (one constructor per
distinct notification shape the handler can send). -/
inductive OutputM where
  | agentText (text : String)
  | agentThought (text : String)
  | planUpdate
  | toolCall (callId title : String)
  | toolCallUpdateStatus (callId : String) (status : ToolStatusM)
  | webSearchQueryUpdate (callId query : String)
  | execToolCall (callId title : String)
  | execOutputUpdate (toolCallId : String)
  | execEndUpdate (toolCallId : String) (status : ToolStatusM) (terminalExit : Bool)
  | permissionRequest (callId : String)
  | mcpToolCall (callId : String)
  | mcpToolCallUpdate (callId : String) (status : ToolStatusM)
  | patchToolCall (callId : String)
  | patchEndUpdate (callId : String) (status : ToolStatusM)
  | viewImageToolCall (callId path : String)
  | outcome (result : OutcomeM)
deriving DecidableEq

/-- The `ActiveCommand` record (src/thread.rs lines 1036-1042). -/
structure ActiveCommandM where
  callId : String
  toolCallId : String
  terminalOutput : Bool
  output : String
  fileExtension : Option String
deriving DecidableEq

/-- The mutable fields of `PromptState` (src/thread.rs lines 1044-1054);
`responseTx` is whether the one-shot completion sender is still present. -/
structure PromptStateM where
  activeCommand : Option ActiveCommandM
  activeWebSearch : Option String
  eventCount : Nat
  responseTx : Bool
  seenMessageDeltas : Bool
  seenReasoningDeltas : Bool
  completed : Bool
deriving DecidableEq

/-- `PromptState::new`: fresh state with the completion sender present. -/
def freshPromptState : PromptStateM :=
  { activeCommand := none
    activeWebSearch := none
    eventCount := 0
    responseTx := true
    seenMessageDeltas := false
    seenReasoningDeltas := false
    completed := false }

/-- `SessionClient::supports_terminal_output`: the command wants terminal
output and the client capability set advertises it. -/
def supportsTerminalOutput (clientTerminalOutput : Bool) (ac : ActiveCommandM) : Bool :=
  ac.terminalOutput && clientTerminalOutput

/-- `PromptState::finish_with_result`: take the sender, send the result if
it was present, mark completed. -/
def finishWithResult (st : PromptStateM) (r : OutcomeM) : PromptStateM × List OutputM :=
  if st.responseTx then
    ({ st with responseTx := false, completed := true }, [OutputM.outcome r])
  else
    ({ st with completed := true }, [])

/-- `PromptState::complete_web_search`: take the outstanding call id, if
any, and update that tool call to status completed. -/
def completeWebSearch (st : PromptStateM) : PromptStateM × List OutputM :=
  match st.activeWebSearch with
  | some callId =>
      ({ st with activeWebSearch := none },
        [OutputM.toolCallUpdateStatus callId ToolStatusM.completed])
  | none => (st, [])

/-- `PromptState::exec_command_begin`: store the ActiveCommand and emit the
in-progress exec tool call. -/
def execCommandBeginM (st : PromptStateM) (callId : String) (parsed : ParsedExecInfo) :
    PromptStateM × List OutputM :=
  let ac : ActiveCommandM := ⟨callId, callId, parsed.terminalOutput, "", parsed.fileExtension⟩
  ({ st with activeCommand := some ac }, [OutputM.execToolCall callId parsed.title])

/-- `PromptState::exec_command_output_delta`: when the delta's call id
matches the active command, either stream it as terminal metadata or append
it to the buffer and send a content update; otherwise drop it. -/
def execCommandOutputDeltaM (caps : Bool) (st : PromptStateM) (callId chunk : String) :
    PromptStateM × List OutputM :=
  match st.activeCommand with
  | some ac =>
    if ac.callId = callId then
      if supportsTerminalOutput caps ac then
        (st, [OutputM.execOutputUpdate ac.toolCallId])
      else
        ({ st with activeCommand := some { ac with output := ac.output ++ chunk } },
          [OutputM.execOutputUpdate ac.toolCallId])
    else (st, [])
  | none => (st, [])

/-- `PromptState::exec_command_end` (src/thread.rs lines 1877-1927): the
`if let Some(active_command) = self.active_command.take()` runs
unconditionally, so the ActiveCommand is always cleared; the
completion/failure update is sent only when the event's call id equals the
stored one. -/
def execCommandEndM (caps : Bool) (st : PromptStateM) (callId : String) (exitCode : Int) :
    PromptStateM × List OutputM :=
  match st.activeCommand with
  | some ac =>
    if ac.callId = callId then
      ({ st with activeCommand := none },
        [OutputM.execEndUpdate ac.toolCallId
          (if exitCode = 0 then ToolStatusM.completed else ToolStatusM.failed)
          (supportsTerminalOutput caps ac)])
    else ({ st with activeCommand := none }, [])
  | none => (st, [])

/-- `PromptState::exec_approval`: store the ActiveCommand, then raise the
permission request (the decision round-trip goes back to the backend, not to
the client stream). -/
def execApprovalM (st : PromptStateM) (callId : String) (parsed : ParsedExecInfo) :
    PromptStateM × List OutputM :=
  let ac : ActiveCommandM := ⟨callId, callId, parsed.terminalOutput, "", parsed.fileExtension⟩
  ({ st with activeCommand := some ac }, [OutputM.permissionRequest callId])

/-- The body of `PromptState::handle_event`: bump the event count, complete
an outstanding web search when the event is in the coalescing list, then
dispatch on the event. -/
def handleEventM (caps : Bool) (st : PromptStateM) (e : EventM) :
    PromptStateM × List OutputM :=
  let stc := { st with eventCount := st.eventCount + 1 }
  let pre := if isCoalescing e then completeWebSearch stc else (stc, [])
  let st1 := pre.1
  let main : PromptStateM × List OutputM :=
    match e with
    | .turnStarted => (st1, [])
    | .itemStarted => (st1, [])
    | .itemCompleted => (st1, [])
    | .userMessage _ => (st1, [])
    | .agentMessageContentDelta d =>
        ({ st1 with seenMessageDeltas := true }, [OutputM.agentText d])
    | .reasoningContentDelta d =>
        ({ st1 with seenReasoningDeltas := true }, [OutputM.agentThought d])
    | .reasoningRawContentDelta d =>
        ({ st1 with seenReasoningDeltas := true }, [OutputM.agentThought d])
    | .agentReasoningSectionBreak =>
        ({ st1 with seenReasoningDeltas := true }, [OutputM.agentThought "\n\n"])
    | .agentMessage m =>
        if st1.seenMessageDeltas then
          ({ st1 with seenMessageDeltas := false }, [])
        else
          ({ st1 with seenMessageDeltas := false }, [OutputM.agentText m])
    | .agentReasoning t =>
        if st1.seenReasoningDeltas then
          ({ st1 with seenReasoningDeltas := false }, [])
        else
          ({ st1 with seenReasoningDeltas := false }, [OutputM.agentThought t])
    | .planUpdate => (st1, [OutputM.planUpdate])
    | .webSearchBegin callId =>
        ({ st1 with activeWebSearch := some callId },
          [OutputM.toolCall callId "Searching the Web"])
    | .webSearchEnd callId query =>
        (st1, [OutputM.webSearchQueryUpdate callId query])
    | .execApprovalRequest callId parsed => execApprovalM st1 callId parsed
    | .execCommandBegin callId parsed => execCommandBeginM st1 callId parsed
    | .execCommandOutputDelta callId chunk => execCommandOutputDeltaM caps st1 callId chunk
    | .execCommandEnd callId exitCode => execCommandEndM caps st1 callId exitCode
    | .mcpToolCallBegin callId => (st1, [OutputM.mcpToolCall callId])
    | .mcpToolCallEnd callId success =>
        (st1, [OutputM.mcpToolCallUpdate callId
          (if success then ToolStatusM.completed else ToolStatusM.failed)])
    | .applyPatchApprovalRequest callId => (st1, [OutputM.permissionRequest callId])
    | .patchApplyBegin callId => (st1, [OutputM.patchToolCall callId])
    | .patchApplyEnd callId success =>
        (st1, [OutputM.patchEndUpdate callId
          (if success then ToolStatusM.completed else ToolStatusM.failed)])
    | .viewImageToolCall callId path => (st1, [OutputM.viewImageToolCall callId path])
    | .enteredReviewMode => (st1, [])
    | .exitedReviewMode reviewText =>
        match reviewText with
        | some t => (st1, [OutputM.agentText t])
        | none => (st1, [])
    | .undoStarted msg =>
        (st1, [OutputM.agentText (msg.getD "Undo in progress...")])
    | .undoCompleted success msg =>
        (st1, [OutputM.agentText
          (msg.getD (if success then "Undo completed." else "Undo failed."))])
    | .streamError _ => (st1, [])
    | .errorEvent m info => finishWithResult st1 (OutcomeM.error m info)
    | .turnComplete => finishWithResult st1 (OutcomeM.ok StopReasonM.endTurn)
    | .turnAborted => finishWithResult st1 (OutcomeM.ok StopReasonM.cancelled)
    | .shutdownComplete => finishWithResult st1 (OutcomeM.ok StopReasonM.cancelled)
    | .tokenCount => (st1, [])
    | .turnDiff => (st1, [])
    | .backgroundEvent => (st1, [])
    | .contextCompacted => (st1, [])
  (main.1, pre.2 ++ main.2)

/-- Process a list of backend events, collecting one output chunk per
event. -/
def runEvents (caps : Bool) (st : PromptStateM) : List EventM → PromptStateM × List (List OutputM)
  | [] => (st, [])
  | e :: es =>
    ((runEvents caps (handleEventM caps st e).1 es).1,
      (handleEventM caps st e).2 :: (runEvents caps (handleEventM caps st e).1 es).2)

/-- The terminal outcome an event maps to: turn-complete yields EndTurn,
turn-aborted and shutdown-complete yield Cancelled, an error event yields an
error carrying message and codex_error_info. -/
def terminalOutcome : EventM → Option OutcomeM
  | .turnComplete => some (OutcomeM.ok StopReasonM.endTurn)
  | .turnAborted => some (OutcomeM.ok StopReasonM.cancelled)
  | .shutdownComplete => some (OutcomeM.ok StopReasonM.cancelled)
  | .errorEvent m info => some (OutcomeM.error m info)
  | _ => none

/-- The outcome determined by the first terminal event of a sequence. -/
def firstTerminalOutcome : List EventM → Option OutcomeM
  | [] => none
  | e :: es =>
    match terminalOutcome e with
    | some o => some o
    | none => firstTerminalOutcome es

def outputOutcome : OutputM → Option OutcomeM
  | .outcome r => some r
  | _ => none

/-- All completion-signal sends in a run's output chunks. -/
def outcomesOf (chunks : List (List OutputM)) : List OutcomeM :=
  (chunks.map (fun outs => outs.filterMap outputOutcome)).flatten

theorem outcomesOf_cons (c : List OutputM) (rest : List (List OutputM)) :
    outcomesOf (c :: rest) = c.filterMap outputOutcome ++ outcomesOf rest := by
  simp [outcomesOf]

theorem completeWebSearch_no_outcome (st : PromptStateM) :
    (completeWebSearch st).2.filterMap outputOutcome = [] := by
  cases h : st.activeWebSearch <;> simp [completeWebSearch, h, outputOutcome]

theorem completeWebSearch_responseTx (st : PromptStateM) :
    (completeWebSearch st).1.responseTx = st.responseTx := by
  cases h : st.activeWebSearch <;> simp [completeWebSearch, h]

theorem handleEventM_nonterminal {e : EventM} (caps : Bool) (st : PromptStateM)
    (h : terminalOutcome e = none) :
    (handleEventM caps st e).1.responseTx = st.responseTx
    ∧ (handleEventM caps st e).2.filterMap outputOutcome = [] := by
  cases e <;>
    (try simp_all [handleEventM, terminalOutcome, completeWebSearch, execApprovalM,
      execCommandBeginM, execCommandOutputDeltaM, execCommandEndM, isCoalescing,
      outputOutcome]) <;>
    (try cases h2 : st.activeWebSearch) <;>
    (try cases h3 : st.activeCommand) <;>
    (try simp_all [outputOutcome]) <;>
    (try split) <;>
    (try simp_all [outputOutcome]) <;>
    (try split) <;>
    (try simp_all [outputOutcome])

theorem handleEventM_terminal {e : EventM} {o : OutcomeM} (caps : Bool) (st : PromptStateM)
    (h : terminalOutcome e = some o) :
    (handleEventM caps st e).1.responseTx = false
    ∧ (handleEventM caps st e).2.filterMap outputOutcome
        = (if st.responseTx then [o] else []) := by
  cases e <;>
    (try simp_all [handleEventM, terminalOutcome, finishWithResult, isCoalescing,
      completeWebSearch, outputOutcome]) <;>
    (try cases h2 : st.activeWebSearch) <;>
    (try cases h3 : st.responseTx) <;>
    (try simp_all [outputOutcome])

theorem runEvents_outcomes (caps : Bool) :
    ∀ (events : List EventM) (st : PromptStateM),
      outcomesOf ((runEvents caps st events).2)
        = (if st.responseTx then (firstTerminalOutcome events).toList else []) := by
  intro events
  induction events with
  | nil =>
    intro st
    simp [runEvents, outcomesOf, firstTerminalOutcome]
  | cons e es ih =>
    intro st
    have hsplit : (runEvents caps st (e :: es)).2
        = (handleEventM caps st e).2 :: (runEvents caps (handleEventM caps st e).1 es).2 := by
      simp [runEvents]
    rw [hsplit, outcomesOf_cons]
    cases hterm : terminalOutcome e with
    | none =>
      obtain ⟨htx, hout⟩ := handleEventM_nonterminal caps st hterm
      rw [hout, List.nil_append, ih, htx]
      have hfirst : firstTerminalOutcome (e :: es) = firstTerminalOutcome es := by
        simp [firstTerminalOutcome, hterm]
      rw [hfirst]
    | some o =>
      obtain ⟨htx, hout⟩ := handleEventM_terminal caps st hterm
      rw [hout, ih, htx]
      have hfirst : firstTerminalOutcome (e :: es) = some o := by
        simp [firstTerminalOutcome, hterm]
      rw [hfirst]
      cases hstx : st.responseTx <;> simp [hstx]

def isMsgDelta : EventM → Bool
  | .agentMessageContentDelta _ => true
  | _ => false

def isMsgFinal : EventM → Bool
  | .agentMessage _ => true
  | _ => false

def isReasoningDeltaLike : EventM → Bool
  | .reasoningContentDelta _ => true
  | .reasoningRawContentDelta _ => true
  | .agentReasoningSectionBreak => true
  | _ => false

def isReasoningFinal : EventM → Bool
  | .agentReasoning _ => true
  | _ => false

theorem handleEventM_seenMessage (caps : Bool) (st : PromptStateM) (e : EventM) :
    (handleEventM caps st e).1.seenMessageDeltas
      = (if isMsgDelta e then true
          else if isMsgFinal e then false else st.seenMessageDeltas) := by
  cases e <;>
    (try simp_all [handleEventM, isMsgDelta, isMsgFinal, completeWebSearch, execApprovalM,
      execCommandBeginM, execCommandOutputDeltaM, execCommandEndM, isCoalescing,
      finishWithResult]) <;>
    (try cases h2 : st.activeWebSearch) <;>
    (try cases h3 : st.activeCommand) <;>
    (try simp_all) <;>
    (try split) <;>
    (try simp_all) <;>
    (try split) <;>
    (try simp_all)

theorem handleEventM_seenReasoning (caps : Bool) (st : PromptStateM) (e : EventM) :
    (handleEventM caps st e).1.seenReasoningDeltas
      = (if isReasoningDeltaLike e then true
          else if isReasoningFinal e then false else st.seenReasoningDeltas) := by
  cases e <;>
    (try simp_all [handleEventM, isReasoningDeltaLike, isReasoningFinal, completeWebSearch,
      execApprovalM, execCommandBeginM, execCommandOutputDeltaM, execCommandEndM,
      isCoalescing, finishWithResult]) <;>
    (try cases h2 : st.activeWebSearch) <;>
    (try cases h3 : st.activeCommand) <;>
    (try simp_all) <;>
    (try split) <;>
    (try simp_all) <;>
    (try split) <;>
    (try simp_all)

theorem runEvents_state_cons (caps : Bool) (st : PromptStateM) (e : EventM)
    (es : List EventM) :
    (runEvents caps st (e :: es)).1 = (runEvents caps (handleEventM caps st e).1 es).1 := by
  simp [runEvents]

theorem runEvents_msg_stays (caps : Bool) :
    ∀ (es : List EventM) (st : PromptStateM), es.any isMsgFinal = false →
      st.seenMessageDeltas = true → (runEvents caps st es).1.seenMessageDeltas = true := by
  intro es
  induction es with
  | nil => intro st hf hs; simpa [runEvents] using hs
  | cons e es ih =>
    intro st hf hs
    simp only [List.any_cons, Bool.or_eq_false_iff] at hf
    rw [runEvents_state_cons]
    refine ih _ hf.2 ?_
    rw [handleEventM_seenMessage, hf.1]
    cases hd : isMsgDelta e <;> simp [hs]

theorem runEvents_msg_true (caps : Bool) :
    ∀ (es : List EventM) (st : PromptStateM), es.any isMsgDelta = true →
      es.any isMsgFinal = false → (runEvents caps st es).1.seenMessageDeltas = true := by
  intro es
  induction es with
  | nil => intro st hd hf; simp at hd
  | cons e es ih =>
    intro st hd hf
    simp only [List.any_cons, Bool.or_eq_false_iff] at hf
    rw [runEvents_state_cons]
    by_cases hde : isMsgDelta e = true
    · refine runEvents_msg_stays caps es _ hf.2 ?_
      rw [handleEventM_seenMessage, hde]
      simp
    · simp only [List.any_cons, Bool.or_eq_true] at hd
      rcases hd with hd | hd
      · exact absurd hd hde
      · exact ih _ hd hf.2

theorem runEvents_reasoning_stays (caps : Bool) :
    ∀ (es : List EventM) (st : PromptStateM), es.any isReasoningFinal = false →
      st.seenReasoningDeltas = true →
      (runEvents caps st es).1.seenReasoningDeltas = true := by
  intro es
  induction es with
  | nil => intro st hf hs; simpa [runEvents] using hs
  | cons e es ih =>
    intro st hf hs
    simp only [List.any_cons, Bool.or_eq_false_iff] at hf
    rw [runEvents_state_cons]
    refine ih _ hf.2 ?_
    rw [handleEventM_seenReasoning, hf.1]
    cases hd : isReasoningDeltaLike e <;> simp [hs]

theorem runEvents_reasoning_true (caps : Bool) :
    ∀ (es : List EventM) (st : PromptStateM), es.any isReasoningDeltaLike = true →
      es.any isReasoningFinal = false →
      (runEvents caps st es).1.seenReasoningDeltas = true := by
  intro es
  induction es with
  | nil => intro st hd hf; simp at hd
  | cons e es ih =>
    intro st hd hf
    simp only [List.any_cons, Bool.or_eq_false_iff] at hf
    rw [runEvents_state_cons]
    by_cases hde : isReasoningDeltaLike e = true
    · refine runEvents_reasoning_stays caps es _ hf.2 ?_
      rw [handleEventM_seenReasoning, hde]
      simp
    · simp only [List.any_cons, Bool.or_eq_true] at hd
      rcases hd with hd | hd
      · exact absurd hd hde
      · exact ih _ hd hf.2

theorem handleEventM_activeWS_noncoalescing {e : EventM} (caps : Bool) (st : PromptStateM)
    (h : isCoalescing e = false) :
    (handleEventM caps st e).1.activeWebSearch = st.activeWebSearch := by
  cases e <;>
    (try simp_all [handleEventM, isCoalescing, completeWebSearch, execApprovalM,
      execCommandBeginM, execCommandOutputDeltaM, execCommandEndM, finishWithResult]) <;>
    (try cases h3 : st.activeCommand) <;>
    (try simp_all) <;>
    (try split) <;>
    (try simp_all) <;>
    (try split) <;>
    (try simp_all)

theorem runEvents_activeWS (caps : Bool) :
    ∀ (ms : List EventM) (st : PromptStateM), (∀ e ∈ ms, isCoalescing e = false) →
      (runEvents caps st ms).1.activeWebSearch = st.activeWebSearch := by
  intro ms
  induction ms with
  | nil => intro st h; simp [runEvents]
  | cons e es ih =>
    intro st h
    rw [runEvents_state_cons]
    rw [ih _ (fun x hx => h x (List.mem_cons_of_mem _ hx))]
    exact handleEventM_activeWS_noncoalescing caps st (h e (List.mem_cons_self _ _))

theorem handleEventM_wsBegin (caps : Bool) (st : PromptStateM) (k : String) :
    (handleEventM caps st (EventM.webSearchBegin k)).1.activeWebSearch = some k := by
  cases h2 : st.activeWebSearch <;>
    simp [handleEventM, isCoalescing, completeWebSearch, h2]

theorem handleEventM_coalescing_head {X : EventM} (caps : Bool) (st : PromptStateM)
    (k : String) (hX : isCoalescing X = true) (hws : st.activeWebSearch = some k) :
    ((handleEventM caps st X).2).head?
      = some (OutputM.toolCallUpdateStatus k ToolStatusM.completed) := by
  cases X <;>
    (try simp_all [handleEventM, isCoalescing, completeWebSearch, execApprovalM,
      execCommandBeginM, execCommandOutputDeltaM, execCommandEndM, finishWithResult]) <;>
    (try cases h3 : st.activeCommand) <;>
    (try simp_all) <;>
    (try split) <;>
    (try simp_all) <;>
    (try split) <;>
    (try simp_all)

/-! ## Context monitor and auto-compact
(src/thread.rs lines 297-302, 538-546, 4710-4846, 4878-4906) -/

inductive ContextOptMode where
  | off
  | monitor
  | auto
deriving DecidableEq

/-- The `PendingAutoCompact` record staged on a threshold crossing. -/
structure PendingAutoCompactM where
  submissionId : String
  totalTokens : Int
  contextWindow : Option Int
  usedPercent : Option Int
deriving DecidableEq

/-- The monitor-relevant fields of `ContextOptimizationState`. -/
structure ContextOptStateM where
  mode : ContextOptMode
  triggerPercent : Int
  pendingAutoCompact : Option PendingAutoCompactM
  autoCompactSubmissionId : Option String
  autoCompactCount : Nat
deriving DecidableEq

/-- `((total_tokens as f64 / window as f64) * 100.0).round()` for the
non-negative token counts the backend reports, as exact rational
rounding-half-up; a non-positive window yields 0, as in the source. -/
def usedPercentOf (totalTokens window : Int) : Int :=
  if window ≤ 0 then 0 else (200 * totalTokens + window) / (2 * window)

/-- `ThreadActor::observe_token_count` (src/thread.rs lines 4710-4758): an
event without usage info is ignored; otherwise, under mode Auto, when no
in-flight auto-compact is bound to this submission and the used percent
reaches the trigger, stage (overwrite) the pending auto-compact record.
`info` carries the total tokens and the event's optional context window; the
config's fallback window is a separate argument. -/
def observeTokenCountM (st : ContextOptStateM) (configWindow : Option Int)
    (submissionId : String) (info : Option (Int × Option Int)) : ContextOptStateM :=
  match info with
  | none => st
  | some (totalTokens, eventWindow) =>
    let contextWindow : Option Int :=
      match eventWindow with
      | some w => some w
      | none => configWindow
    let usedPercent : Option Int := contextWindow.map (usedPercentOf totalTokens)
    let shouldStage :=
      (match st.mode with | ContextOptMode.auto => true | _ => false)
        && (match st.autoCompactSubmissionId with
            | none => true
            | some id => decide (¬ id = submissionId))
        && (match usedPercent with
            | some used => decide (st.triggerPercent ≤ used)
            | none => false)
    let staged : PendingAutoCompactM :=
      ⟨submissionId, totalTokens, contextWindow, usedPercent⟩
    if shouldStage then
      { st with pendingAutoCompact := some staged }
    else st

/-- A compact operation submitted to the backend, tagged with the pending
record it consumed and the backend-assigned submission id of the compact. -/
inductive CompactEffect where
  | submitCompact (consumed : PendingAutoCompactM) (newSubmissionId : String)
deriving DecidableEq

/-- `ThreadActor::maybe_trigger_auto_compact_after_turn` (src/thread.rs
lines 4760-4846).  `submitResult` models `thread.submit(Op::Compact)`:
`some id` on success, `none` on error (the pending record is consumed in
both cases, since the source clears it before submitting). -/
def maybeTriggerAutoCompactAfterTurn (st : ContextOptStateM) (submissionId : String)
    (submitResult : Option String) : ContextOptStateM × List CompactEffect :=
  if st.autoCompactSubmissionId = some submissionId then
    ({ st with autoCompactSubmissionId := none }, [])
  else
    match st.pendingAutoCompact with
    | none => (st, [])
    | some pending =>
      if ¬ pending.submissionId = submissionId then (st, [])
      else if match st.mode with | ContextOptMode.auto => false | _ => true then (st, [])
      else if st.autoCompactSubmissionId.isSome then (st, [])
      else
        match submitResult with
        | some newId =>
            ({ st with pendingAutoCompact := none
                       autoCompactSubmissionId := some newId
                       autoCompactCount := st.autoCompactCount + 1 },
              [CompactEffect.submitCompact pending newId])
        | none => ({ st with pendingAutoCompact := none }, [])

/-- The monitor-relevant view of a backend event routed through
`ThreadActor::handle_event` (src/thread.rs lines 4878-4906). -/
inductive MonitorEvent where
  | tokenCount (submissionId : String) (info : Option (Int × Option Int))
  | turnComplete (submissionId : String)
  | turnAborted (submissionId : String)
  | errorEvent (submissionId : String)
  | streamError (submissionId : String)
  | otherEvent
deriving DecidableEq

/-- One step of the actor's event routing as it touches the context
monitor: token counts are observed, a turn-complete may trigger the staged
auto-compact, and abort/error on the in-flight auto-compact clears its
tracking id. -/
def monitorStep (configWindow : Option Int) (st : ContextOptStateM) (e : MonitorEvent)
    (submitResult : Option String) : ContextOptStateM × List CompactEffect :=
  match e with
  | .tokenCount sid info => (observeTokenCountM st configWindow sid info, [])
  | .turnComplete sid => maybeTriggerAutoCompactAfterTurn st sid submitResult
  | .turnAborted sid =>
      (if st.autoCompactSubmissionId = some sid then
        { st with autoCompactSubmissionId := none } else st, [])
  | .errorEvent sid =>
      (if st.autoCompactSubmissionId = some sid then
        { st with autoCompactSubmissionId := none } else st, [])
  | .streamError sid =>
      (if st.autoCompactSubmissionId = some sid then
        { st with autoCompactSubmissionId := none } else st, [])
  | .otherEvent => (st, [])

/-- Run the monitor over a trace of (event, submit-result) pairs,
collecting all compact submissions. -/
def monitorRun (configWindow : Option Int) (st : ContextOptStateM) :
    List (MonitorEvent × Option String) → ContextOptStateM × List CompactEffect
  | [] => (st, [])
  | (e, res) :: rest =>
    ((monitorRun configWindow (monitorStep configWindow st e res).1 rest).1,
      (monitorStep configWindow st e res).2
        ++ (monitorRun configWindow (monitorStep configWindow st e res).1 rest).2)

/-- The monitor state the actor starts from under mode Auto with trigger
percent 90. -/
def ctxAuto90 : ContextOptStateM :=
  { mode := ContextOptMode.auto
    triggerPercent := 90
    pendingAutoCompact := none
    autoCompactSubmissionId := none
    autoCompactCount := 0 }

/-! ## Claim theorems for C4, C6, C8, C9 -/

/-- C1: for every submission handled by a Prompt state, the completion
signal carries exactly one terminal outcome, determined by the first
terminal backend event: the sent outcomes of any event sequence are exactly
`firstTerminalOutcome` of the sequence (turn-complete ↦ EndTurn,
turn-aborted / shutdown-complete ↦ Cancelled, error ↦ error with message
and codex_error_info), and once one is sent no later event can send a
second. -/
theorem c1_terminal_outcome_unique :
    ∀ (caps : Bool) (events : List EventM),
      outcomesOf ((runEvents caps freshPromptState events).2)
        = (firstTerminalOutcome events).toList := by
  intro caps events
  rw [runEvents_outcomes caps events freshPromptState]
  simp [freshPromptState]

/-- C2: if at least one assistant-message delta was handled this turn (and
no earlier final cleared the flag), the final assistant-message event emits
nothing and clears the seen flag; the same holds for reasoning deltas versus
the final reasoning event. -/
theorem c2_streaming_dedup :
    ∀ (caps : Bool) (pre : List EventM) (m t : String),
      (pre.any isMsgDelta = true → pre.any isMsgFinal = false →
        (handleEventM caps (runEvents caps freshPromptState pre).1
            (EventM.agentMessage m)).2 = []
        ∧ (handleEventM caps (runEvents caps freshPromptState pre).1
            (EventM.agentMessage m)).1.seenMessageDeltas = false)
      ∧ (pre.any isReasoningDeltaLike = true → pre.any isReasoningFinal = false →
        (handleEventM caps (runEvents caps freshPromptState pre).1
            (EventM.agentReasoning t)).2 = []
        ∧ (handleEventM caps (runEvents caps freshPromptState pre).1
            (EventM.agentReasoning t)).1.seenReasoningDeltas = false) := by
  intro caps pre m t
  constructor
  · intro hd hf
    have hflag := runEvents_msg_true caps pre freshPromptState hd hf
    constructor
    · simp [handleEventM, isCoalescing, hflag]
    · rw [handleEventM_seenMessage]
      simp [isMsgDelta, isMsgFinal]
  · intro hd hf
    have hflag := runEvents_reasoning_true caps pre freshPromptState hd hf
    constructor
    · simp [handleEventM, isCoalescing, hflag]
    · rw [handleEventM_seenReasoning]
      simp [isReasoningDeltaLike, isReasoningFinal]

theorem c2_streaming_dedup_witness :
    ((handleEventM false
        (runEvents false freshPromptState
          [EventM.agentMessageContentDelta "Hi", EventM.reasoningContentDelta "th"]).1
        (EventM.agentMessage "Hi")).2 = []
      ∧ (handleEventM false
          (runEvents false freshPromptState
            [EventM.agentMessageContentDelta "Hi", EventM.reasoningContentDelta "th"]).1
          (EventM.agentMessage "Hi")).1.seenMessageDeltas = false)
    ∧ ((handleEventM false
        (runEvents false freshPromptState
          [EventM.agentMessageContentDelta "Hi", EventM.reasoningContentDelta "th"]).1
        (EventM.agentReasoning "th")).2 = []
      ∧ (handleEventM false
          (runEvents false freshPromptState
            [EventM.agentMessageContentDelta "Hi", EventM.reasoningContentDelta "th"]).1
          (EventM.agentReasoning "th")).1.seenReasoningDeltas = false) :=
  ⟨(c2_streaming_dedup false
        [EventM.agentMessageContentDelta "Hi", EventM.reasoningContentDelta "th"]
        "Hi" "th").1 (by decide) (by decide),
   (c2_streaming_dedup false
        [EventM.agentMessageContentDelta "Hi", EventM.reasoningContentDelta "th"]
        "Hi" "th").2 (by decide) (by decide)⟩

/-- C3 counterexample: the claim fails as stated.  In the run
[web-search-begin(k), web-search-end(k), agent-message] the final
agent-message is not in the handler's coalescing list, so the web-search
tool call k is never updated to completed — no completed update for k
appears anywhere in the run's outputs and the search is still outstanding
afterwards. -/
theorem c3_web_search_counterexample :
    OutputM.toolCallUpdateStatus "k" ToolStatusM.completed
        ∉ ((runEvents false freshPromptState
            [EventM.webSearchBegin "k", EventM.webSearchEnd "k" "q",
              EventM.agentMessage "done"]).2).flatten
    ∧ (runEvents false freshPromptState
        [EventM.webSearchBegin "k", EventM.webSearchEnd "k" "q",
          EventM.agentMessage "done"]).1.activeWebSearch = some "k" := by
  decide

/-- C3 (amended): for any event sequence
[web-search-begin(k), ms..., web-search-end(k), X] where the events of ms
are outside the handler's coalescing list and X is in it (error,
stream-error, user-message, exec, MCP, patch, turn lifecycle, token-count,
turn-diff, review-mode, shutdown, or a new web-search begin), the first
output of processing X is the update of tool call k to status completed. -/
theorem c3_web_search_coalescing_amended :
    ∀ (caps : Bool) (k q : String) (ms : List EventM) (X : EventM),
      (∀ e ∈ ms, isCoalescing e = false) → isCoalescing X = true →
      ((handleEventM caps
          (runEvents caps freshPromptState
            (EventM.webSearchBegin k :: (ms ++ [EventM.webSearchEnd k q]))).1 X).2).head?
        = some (OutputM.toolCallUpdateStatus k ToolStatusM.completed) := by
  intro caps k q ms X hms hX
  have hws : (runEvents caps freshPromptState
      (EventM.webSearchBegin k :: (ms ++ [EventM.webSearchEnd k q]))).1.activeWebSearch
      = some k := by
    rw [runEvents_state_cons]
    have happend : ∀ e ∈ ms ++ [EventM.webSearchEnd k q], isCoalescing e = false := by
      intro e he
      rcases List.mem_append.mp he with he | he
      · exact hms e he
      · simp only [List.mem_singleton] at he
        subst he
        rfl
    rw [runEvents_activeWS caps _ _ happend]
    exact handleEventM_wsBegin caps freshPromptState k
  exact handleEventM_coalescing_head caps _ k hX hws

theorem c3_web_search_coalescing_amended_witness :
    ((handleEventM false
        (runEvents false freshPromptState
          [EventM.webSearchBegin "k", EventM.webSearchEnd "k" "q"]).1
        EventM.turnComplete).2).head?
      = some (OutputM.toolCallUpdateStatus "k" ToolStatusM.completed) :=
  c3_web_search_coalescing_amended false "k" "q" [] EventM.turnComplete
    (by intro e he; cases he) (by decide)

/-- C10: handling an exec-end event with an ActiveCommand present always
clears the ActiveCommand (the `take()` runs before the call-id comparison);
a completion/failure update for the stored tool call id is emitted exactly
when the event's call id matches the stored one (completed iff exit code 0,
failed otherwise), and a mismatched exec-end discards the active command and
its buffered output with no client-visible update. -/
theorem c10_exec_end_active_command :
    ∀ (caps : Bool) (st : PromptStateM) (ac : ActiveCommandM) (callId : String)
      (exitCode : Int),
      st.activeCommand = some ac →
      (execCommandEndM caps st callId exitCode).1.activeCommand = none
      ∧ (ac.callId = callId →
          (execCommandEndM caps st callId exitCode).2
            = [OutputM.execEndUpdate ac.toolCallId
                (if exitCode = 0 then ToolStatusM.completed else ToolStatusM.failed)
                (supportsTerminalOutput caps ac)])
      ∧ (¬ ac.callId = callId → (execCommandEndM caps st callId exitCode).2 = []) := by
  intro caps st ac callId exitCode h
  by_cases hc : ac.callId = callId <;> simp [execCommandEndM, h, hc]

theorem c10_exec_end_active_command_witness :
    ((execCommandEndM false
        ⟨some ⟨"c", "c", false, "buf", none⟩, none, 0, true, false, false, false⟩
        "c" 0).1.activeCommand = none
      ∧ (execCommandEndM false
          ⟨some ⟨"c", "c", false, "buf", none⟩, none, 0, true, false, false, false⟩
          "c" 0).2
        = [OutputM.execEndUpdate "c" ToolStatusM.completed false])
    ∧ ((execCommandEndM false
        ⟨some ⟨"c", "c", false, "buf", none⟩, none, 0, true, false, false, false⟩
        "other" 1).1.activeCommand = none
      ∧ (execCommandEndM false
          ⟨some ⟨"c", "c", false, "buf", none⟩, none, 0, true, false, false, false⟩
          "other" 1).2 = []) := by
  constructor
  · have h := c10_exec_end_active_command false
      ⟨some ⟨"c", "c", false, "buf", none⟩, none, 0, true, false, false, false⟩
      ⟨"c", "c", false, "buf", none⟩ "c" 0 rfl
    exact ⟨h.1, by simpa [supportsTerminalOutput] using h.2.1 rfl⟩
  · have h := c10_exec_end_active_command false
      ⟨some ⟨"c", "c", false, "buf", none⟩, none, 0, true, false, false, false⟩
      ⟨"c", "c", false, "buf", none⟩ "other" 1 rfl
    exact ⟨h.1, h.2.2 (by decide)⟩

/-- C4 counterexample: the claim fails as stated.  First, `resolve` is not
idempotent on the tables `register` can build: after `register("child",
"parent")` and `register("parent", "grand")`, `resolve(resolve("child")) =
"grand" ≠ "parent" = resolve("child")`.  Second, the thread actor's
`send_notification` puts its stored session id on the wire unresolved, so
with `"child"` registered as an alias the wire id differs from
`resolve("child")`. -/
theorem c4_alias_resolution_counterexample :
    resolveSessionAlias
        (registerSessionAlias "parent" "grand" (registerSessionAlias "child" "parent" []))
        (resolveSessionAlias
          (registerSessionAlias "parent" "grand" (registerSessionAlias "child" "parent" []))
          "child")
      ≠ resolveSessionAlias
          (registerSessionAlias "parent" "grand" (registerSessionAlias "child" "parent" []))
          "child"
    ∧ sendNotificationWireId "child"
      ≠ resolveSessionAlias (registerSessionAlias "child" "parent" []) "child" := by
  decide

/-- C4 (amended): `resolve` returns the registered parent when the input id
is mapped and the input id unchanged otherwise; `resolve` is idempotent
whenever no registered parent id is itself registered as a child; outbound
notifications sent through the CLI-driver path (`cli_common::send_agent_text`)
reach the wire with id `resolve(s)`, while the thread actor's
`send_notification` sends its stored session id unresolved. -/
theorem c4_alias_resolution_amended :
    (∀ (t : List (String × String)) (s p : String),
        aliasLookup t s = some p → resolveSessionAlias t s = p)
    ∧ (∀ (t : List (String × String)) (s : String),
        aliasLookup t s = none → resolveSessionAlias t s = s)
    ∧ (∀ (t : List (String × String)) (s : String),
        (∀ cp ∈ t, aliasLookup t cp.2 = none) →
          resolveSessionAlias t (resolveSessionAlias t s) = resolveSessionAlias t s)
    ∧ (∀ (t : List (String × String)) (s : String),
        cliSendAgentTextWireId t s = resolveSessionAlias t s)
    ∧ (∀ s : String, sendNotificationWireId s = s) := by
  refine ⟨?_, ?_, ?_, ?_, ?_⟩
  · intro t s p h; exact resolveSessionAlias_of_lookup h
  · intro t s h; exact resolveSessionAlias_of_unmapped h
  · intro t s h
    cases hl : aliasLookup t s with
    | none =>
      rw [resolveSessionAlias_of_unmapped hl]
      exact resolveSessionAlias_of_unmapped hl
    | some p =>
      rw [resolveSessionAlias_of_lookup hl]
      exact resolveSessionAlias_of_unmapped (h (s, p) (aliasLookup_mem hl))
  · intro t s; rfl
  · intro s; rfl

theorem c4_alias_resolution_amended_witness :
    resolveSessionAlias [("child", "parent")] "child" = "parent"
    ∧ resolveSessionAlias [("child", "parent")] "other" = "other"
    ∧ resolveSessionAlias [("child", "parent")]
        (resolveSessionAlias [("child", "parent")] "child")
      = resolveSessionAlias [("child", "parent")] "child"
    ∧ cliSendAgentTextWireId [("child", "parent")] "child"
      = resolveSessionAlias [("child", "parent")] "child" :=
  ⟨c4_alias_resolution_amended.1 [("child", "parent")] "child" "parent" (by decide),
   c4_alias_resolution_amended.2.1 [("child", "parent")] "other" (by decide),
   c4_alias_resolution_amended.2.2.1 [("child", "parent")] "child" (by decide),
   c4_alias_resolution_amended.2.2.2.1 [("child", "parent")] "child"⟩

/-- C5 counterexample: the claim fails as stated.  With mode Auto and
trigger 90, two submissions s1 and s2 both report 95% usage (each staging a
pending record, the second overwriting the first), and both turns complete;
only one compact is submitted, consuming s2's record — no compact is ever
submitted for the record staged by s1's token-count event, so "exactly one
compact per staged record" does not hold. -/
theorem c5_auto_compact_counterexample :
    (monitorRun none ctxAuto90
        [(MonitorEvent.tokenCount "s1" (some (95, some 100)), none),
          (MonitorEvent.tokenCount "s2" (some (95, some 100)), none),
          (MonitorEvent.turnComplete "s1", some "c1"),
          (MonitorEvent.turnComplete "s2", some "c1")]).2
      = [CompactEffect.submitCompact ⟨"s2", 95, some 100, some 95⟩ "c1"]
    ∧ usedPercentOf 95 100 = 95
    ∧ (monitorRun none ctxAuto90
        [(MonitorEvent.tokenCount "s1" (some (95, some 100)), none),
          (MonitorEvent.tokenCount "s2" (some (95, some 100)), none),
          (MonitorEvent.turnComplete "s1", some "c1"),
          (MonitorEvent.turnComplete "s2", some "c1")]).2.filter
        (fun eff => match eff with
          | CompactEffect.submitCompact p _ => decide (p.submissionId = "s1")) = [] := by
  decide

/-- C5 (amended): a compact is submitted only while processing the
turn-complete event of the staged record's submission — never at the
token-count event itself — and only when mode is still Auto, no auto-compact
is in flight, and the backend submit succeeds; the pending record is cleared
when consumed, so each staged record produces at most one compact, and a
staged record can be superseded (overwritten by a later crossing) or
suppressed, in which case no compact is submitted for it.  A token-count
event reporting used-percent ≥ trigger under mode Auto stages the pending
record. -/
theorem c5_auto_compact_amended :
    ∀ (configWindow : Option Int) (st : ContextOptStateM) (res : Option String),
      (∀ (sid : String) (info : Option (Int × Option Int)),
        (monitorStep configWindow st (MonitorEvent.tokenCount sid info) res).2 = [])
      ∧ (∀ (e : MonitorEvent) (p : PendingAutoCompactM) (nid : String),
          CompactEffect.submitCompact p nid ∈ (monitorStep configWindow st e res).2 →
            e = MonitorEvent.turnComplete p.submissionId
            ∧ st.pendingAutoCompact = some p
            ∧ st.mode = ContextOptMode.auto
            ∧ st.autoCompactSubmissionId = none
            ∧ res = some nid
            ∧ (monitorStep configWindow st e res).1.pendingAutoCompact = none)
      ∧ (∀ (p : PendingAutoCompactM) (nid : String),
          st.pendingAutoCompact = some p → st.mode = ContextOptMode.auto →
          st.autoCompactSubmissionId = none → res = some nid →
            (monitorStep configWindow st (MonitorEvent.turnComplete p.submissionId) res).2
              = [CompactEffect.submitCompact p nid]
            ∧ (monitorStep configWindow st
                (MonitorEvent.turnComplete p.submissionId) res).1.pendingAutoCompact
              = none)
      ∧ (∀ (sid : String) (total w : Int),
          st.mode = ContextOptMode.auto →
          (∀ x, st.autoCompactSubmissionId = some x → ¬ x = sid) →
          st.triggerPercent ≤ usedPercentOf total w →
            (monitorStep configWindow st
                (MonitorEvent.tokenCount sid (some (total, some w))) res).1.pendingAutoCompact
              = some ⟨sid, total, some w, some (usedPercentOf total w)⟩) := by
  intro configWindow st res
  refine ⟨fun sid info => rfl, ?_, ?_, ?_⟩
  · intro e p nid hmem
    cases e with
    | tokenCount sid info => simp [monitorStep] at hmem
    | turnAborted sid => simp [monitorStep] at hmem
    | errorEvent sid => simp [monitorStep] at hmem
    | streamError sid => simp [monitorStep] at hmem
    | otherEvent => simp [monitorStep] at hmem
    | turnComplete sid =>
      by_cases h1 : st.autoCompactSubmissionId = some sid
      · simp [monitorStep, maybeTriggerAutoCompactAfterTurn, h1] at hmem
      · cases hp : st.pendingAutoCompact with
        | none => simp [monitorStep, maybeTriggerAutoCompactAfterTurn, h1, hp] at hmem
        | some pending =>
          by_cases h2 : pending.submissionId = sid
          case neg =>
            simp [monitorStep, maybeTriggerAutoCompactAfterTurn, h1, hp, h2] at hmem
          case pos =>
            cases hm : st.mode with
            | off => simp [monitorStep, maybeTriggerAutoCompactAfterTurn, h1, hp, h2, hm]
                at hmem
            | monitor => simp [monitorStep, maybeTriggerAutoCompactAfterTurn, h1, hp, h2,
                hm] at hmem
            | auto =>
              cases hac : st.autoCompactSubmissionId with
              | some x =>
                have hxs : ¬ x = sid := fun hh => h1 (by rw [hac, hh])
                simp [monitorStep, maybeTriggerAutoCompactAfterTurn, h1, hp, h2, hm, hac,
                  hxs] at hmem
              | none =>
                cases hres : res with
                | none =>
                  rw [hres] at hmem
                  simp [monitorStep, maybeTriggerAutoCompactAfterTurn, h1, hp, h2, hm,
                    hac] at hmem
                | some newId =>
                  rw [hres] at hmem
                  have hcomp : monitorStep configWindow st (MonitorEvent.turnComplete sid)
                        (some newId)
                      = ({ st with pendingAutoCompact := none
                                   autoCompactSubmissionId := some newId
                                   autoCompactCount := st.autoCompactCount + 1 },
                          [CompactEffect.submitCompact pending newId]) := by
                    simp [monitorStep, maybeTriggerAutoCompactAfterTurn, h1, hp, h2, hm,
                      hac]
                  rw [hcomp] at hmem
                  simp only [List.mem_singleton, CompactEffect.submitCompact.injEq] at hmem
                  obtain ⟨hpp, hnn⟩ := hmem
                  refine ⟨?_, ?_, rfl, rfl, ?_, ?_⟩
                  · rw [hpp, h2]
                  · rw [hpp]
                  · rw [hnn]
                  · rw [hcomp]
  · intro p nid hp hm hac hres
    subst hres
    simp [monitorStep, maybeTriggerAutoCompactAfterTurn, hp, hm, hac]
  · intro sid total w hmode hauto htrig
    cases hac : st.autoCompactSubmissionId with
    | none => simp [monitorStep, observeTokenCountM, hmode, hac, htrig]
    | some x =>
      have hx := hauto x hac
      simp [monitorStep, observeTokenCountM, hmode, hac, hx, htrig]

theorem c5_auto_compact_amended_witness :
    (monitorStep none ctxAuto90
        (MonitorEvent.tokenCount "s" (some (95, some 100))) none).2 = []
    ∧ (monitorStep none
        ⟨ContextOptMode.auto, 90, some ⟨"s", 95, some 100, some 95⟩, none, 0⟩
        (MonitorEvent.turnComplete "s") (some "c")).2
      = [CompactEffect.submitCompact ⟨"s", 95, some 100, some 95⟩ "c"]
    ∧ (monitorStep none ctxAuto90
        (MonitorEvent.tokenCount "s" (some (95, some 100))) none).1.pendingAutoCompact
      = some ⟨"s", 95, some 100, some 95⟩ :=
  ⟨(c5_auto_compact_amended none ctxAuto90 none).1 "s" (some (95, some 100)),
   ((c5_auto_compact_amended none
      ⟨ContextOptMode.auto, 90, some ⟨"s", 95, some 100, some 95⟩, none, 0⟩
      (some "c")).2.2.1 ⟨"s", 95, some 100, some 95⟩ "c" rfl rfl rfl rfl).1,
   (c5_auto_compact_amended none ctxAuto90 none).2.2.2 "s" 95 100 rfl
     (fun x hx => Option.noConfusion hx) (by decide)⟩

/-- C6 counterexample: for a successful set-mode command whose deduplicated
emitters both fire, the actor's action trace is response first, then the
config-options update, then the plan update — so the updates are NOT
emitted before the response is delivered, contradicting the claim. -/
theorem c6_update_order_counterexample :
    handleSetLikeMessage true true true =
      [ActorAction.response true, ActorAction.configOptionsUpdate,
        ActorAction.setupWizardPlanUpdate]
    ∧ ¬ ((handleSetLikeMessage true true true).indexOf ActorAction.configOptionsUpdate
          < (handleSetLikeMessage true true true).indexOf (ActorAction.response true)) := by
  decide

/-- C6 (amended): for every inbound set-mode, set-model or set-config-option
command, the response is delivered on the command's one-shot channel first;
any config-options update and setup-wizard plan update notification is
emitted strictly after the response, and only when the command succeeded. -/
theorem c6_update_order_amended :
    ∀ resultOk emitsConfig emitsPlan : Bool,
      (handleSetLikeMessage resultOk emitsConfig emitsPlan).head?
          = some (ActorAction.response resultOk)
      ∧ (∀ a ∈ (handleSetLikeMessage resultOk emitsConfig emitsPlan).tail,
          a = ActorAction.configOptionsUpdate ∨ a = ActorAction.setupWizardPlanUpdate)
      ∧ (resultOk = false →
          (handleSetLikeMessage resultOk emitsConfig emitsPlan).tail = []) := by
  decide

theorem c6_update_order_amended_witness :
    (handleSetLikeMessage true true true).head? = some (ActorAction.response true)
    ∧ (ActorAction.configOptionsUpdate = ActorAction.configOptionsUpdate
        ∨ ActorAction.configOptionsUpdate = ActorAction.setupWizardPlanUpdate)
    ∧ (handleSetLikeMessage false true true).tail = [] :=
  ⟨(c6_update_order_amended true true true).1,
   (c6_update_order_amended true true true).2.1 ActorAction.configOptionsUpdate (by decide),
   (c6_update_order_amended false true true).2.2 rfl⟩

/-- C7 counterexample: the claim fails as stated.  `redact_json` is applied
only to the `data` payload of a canonical event, so string values in the
written event's envelope keep their secret tokens: logging with a session
store whose `acp_session_id` is an `sk-` token writes that token verbatim
(while the same token inside `data` is replaced). -/
theorem c7_redaction_counterexample :
    (logCanonicalEvent ⟨"global", "codex", "sk-aaaaaaaaaaaaaaaaaaaa", "backend"⟩ 0
        "test.event" (JsonValue.string "sk-1234567890123456789012345")).acpSessionId
      = "sk-aaaaaaaaaaaaaaaaaaaa"
    ∧ containsSecretS
        (logCanonicalEvent ⟨"global", "codex", "sk-aaaaaaaaaaaaaaaaaaaa", "backend"⟩ 0
          "test.event" (JsonValue.string "sk-1234567890123456789012345")).acpSessionId
      = true := by
  exact ⟨rfl, by decide⟩

/-- C7 (amended): the written event's `data` payload is `redact_json` of the
given value — every string value in the payload (including strings nested in
arrays and object values) has its secret tokens replaced, object keys are
left unchanged, and consequently no string value of the payload contains a
substring matching `\b(sk-[A-Za-z0-9]{20,})\b`; the envelope fields of the
event are written as stored, without redaction. -/
theorem c7_redaction_amended :
    (∀ (store : SessionStoreM) (tsMs : Nat) (kind : String) (data : JsonValue),
        (logCanonicalEvent store tsMs kind data).data = redactJson data
          ∧ containsSecretJson ((logCanonicalEvent store tsMs kind data).data) = false
          ∧ (logCanonicalEvent store tsMs kind data).acpSessionId = store.acpSessionId
          ∧ (logCanonicalEvent store tsMs kind data).kind = kind)
    ∧ (∀ v : JsonValue, containsSecretJson (redactJson v) = false)
    ∧ (∀ entries : List (String × JsonValue),
        (redactJsonEntries entries).map Prod.fst = entries.map Prod.fst) := by
  refine ⟨fun store tsMs kind data =>
      ⟨rfl, containsSecretJson_redactJson data, rfl, rfl⟩,
    containsSecretJson_redactJson, ?_⟩
  intro entries
  induction entries with
  | nil => simp [redactJsonEntries]
  | cons kv kvs ih =>
    cases kv
    simp [redactJsonEntries, ih]

/-- C8: for every list of prompt content blocks, the prompt token estimate's
total equals the sum over the blocks of: ceil(chars/4) for a text block;
12 + ceil(chars/4) of URI and name for a resource link; ceil(chars/4) of
payload and URI for an embedded text resource; 1024 per image; 2048 per
audio. -/
theorem c8_prompt_token_estimate_total :
    ∀ prompt : List ContentBlockM,
      (estimatePromptTokens prompt).total_tokens = specPromptTokenTotal prompt := by
  intro prompt
  have h := categorySum_foldl prompt emptyPromptTokenEstimate
  simp [categorySum, emptyPromptTokenEstimate] at h
  simp [estimatePromptTokens, emptyPromptTokenEstimate]
  omega

/-- C9: when task orchestration is Sequential and at least one
prompt/task/one-shot submission is active, a new prompt is refused: the
actor emits the refusal assistant-message chunk, resolves the prompt locally
with EndTurn, submits no operation to the backend, and leaves the set of
live submissions unchanged. -/
theorem c9_sequential_prompt_refusal :
    ∀ (subs : List SubmissionEntry) (opKind newId : String) (newLabel : SubmissionLabel),
      0 < activeTaskCount subs →
      handlePromptGate TaskOrchestrationModeM.sequential subs opKind newId newLabel =
        { agentTexts := [sequentialRefusalMessage]
          submittedOps := []
          localOutcome := some (OutcomeM.ok StopReasonM.endTurn)
          submissions := subs } := by
  intro subs opKind newId newLabel h
  simp [handlePromptGate, h]

theorem c9_sequential_prompt_refusal_witness :
    handlePromptGate TaskOrchestrationModeM.sequential
        [⟨"s1", SubmissionLabel.prompt, true⟩] "user_input" "s2" SubmissionLabel.prompt =
      { agentTexts := [sequentialRefusalMessage]
        submittedOps := []
        localOutcome := some (OutcomeM.ok StopReasonM.endTurn)
        submissions := [⟨"s1", SubmissionLabel.prompt, true⟩] } :=
  c9_sequential_prompt_refusal [⟨"s1", SubmissionLabel.prompt, true⟩] "user_input" "s2"
    SubmissionLabel.prompt (by decide)

end XsfireAcp
